import Mathlib

/-!
# go-postmark: the message builder and the `Send` primitive

A shallow embedding of `postmark/postmark.go`.

* A Go string is a sequence of bytes.  A Lean `String` is a sequence of Unicode
  scalar values, so it stands for a Go string that holds valid UTF-8 (its
  bytes are `goBytes`); Go strings with other bytes are outside this model.
  `len(x) > 0` is `0 < x.length`: both say that the string is not empty.
* A Go slice `[]*Header` is either `nil` or a sequence of pointers, each of
  which may itself be `nil`: `Option (List (Option Header))`.
* A method with a pointer receiver that mutates the receiver is a function
  returning the new value of the receiver.
* `Send` talks to three library calls (`json.Marshal`, `http.NewRequest`,
  `client.Do`).  Their success behaviour is modelled as documented by the Go
  standard library; whether they fail, and what the transport answers, is
  decided by an explicit environment.  `Send` returns the error value together
  with the sequence of library calls it made.
* The message and server pointers handed to the methods are not nil.  The
  one-time construction of the shared `http.Client` has no effect on what `Send`
  returns and is left out.
-/

namespace postmark

/-! ## General constants -/

/-- An empty string. -/
def empty : String := ""

/-! ## Data model -/

/-- Header represents an SMTP header. -/
structure Header where
  Name : String
  Value : String
deriving DecidableEq, Repr

/-- NewHeader creates a new SMTP header. -/
def NewHeader (name : String) (value : String) : Header :=
  let h : Header := { Name := "", Value := "" }
  let h := { h with Name := name }
  let h := { h with Value := value }
  h

/-- Message represents an e-mail message. -/
structure Message where
  From : String
  To : String
  Cc : String
  Bcc : String
  Tag : String
  Subject : String
  HtmlBody : String
  TextBody : String
  ReplyTo : String
  Headers : Option (List (Option Header))
deriving DecidableEq, Repr

/-- NewMessage creates a new e-mail message: `new(Message)`, every field at
its zero value (empty strings, a nil slice). -/
def NewMessage : Message :=
  { From := "", To := "", Cc := "", Bcc := "", Tag := "", Subject := "",
    HtmlBody := "", TextBody := "", ReplyTo := "", Headers := none }

/-- AppendTo adds a new recipient. -/
def Message.AppendTo (m : Message) (recipient : String) : Message :=
  if 0 < m.To.length then
    { m with To := m.To ++ (", " ++ recipient) }
  else
    { m with To := recipient }

/-- AppendCc adds a new CC address. -/
def Message.AppendCc (m : Message) (recipient : String) : Message :=
  if 0 < m.Cc.length then
    { m with Cc := m.Cc ++ (", " ++ recipient) }
  else
    { m with To := recipient }

/-- AppendBcc adds a new BCC address. -/
def Message.AppendBcc (m : Message) (recipient : String) : Message :=
  if 0 < m.Bcc.length then
    { m with Bcc := m.Bcc ++ (", " ++ recipient) }
  else
    { m with To := recipient }

/-- Server represents a Postmark server. -/
structure Server where
  APIKey : String
  DefaultFrom : String
  DefaultReplyTo : String
deriving DecidableEq, Repr

/-- NewServer creates a new Postmark server. -/
def NewServer (key : String) : Server :=
  let s : Server := { APIKey := "", DefaultFrom := "", DefaultReplyTo := "" }
  { s with APIKey := key }

/-! ## Postmark API constants -/

/-- The Content-type used on the API. -/
def pmContentType : String := "application/json"
/-- The API endpoint. -/
def pmAPIAddress : String := "http://api.postmarkapp.com/email"
/-- The request type. -/
def pmRequestType : String := "POST"
/-- The Accept http header name. -/
def headerAccept : String := "Accept"
/-- The Content-type http header name. -/
def headerContent : String := "Content-Type"
/-- The postmark server token header name. -/
def headerToken : String := "X-Postmark-Server-Token"

/-- E-mail sent. -/
def responseSuccess : Int := 200
/-- Missing or wrong Server API key. -/
def responseUnauthorized : Int := 401
/-- Invalid message. -/
def responseUnprocessable : Int := 422
/-- Internal. -/
def responseInternalError : Int := 500

/-! ## Errors -/

/-- A Go `error` value.  An error made by `errors.New` is identified by its
text: the four package errors have four different texts. -/
structure GoError where
  text : String
deriving DecidableEq, Repr

/-- The library call `errors.New`. -/
def errorsNew (text : String) : GoError := { text := text }

def ErrorUnknownResponse : GoError :=
  errorsNew "The Postmark API returned an unknown HTTP response code."
def ErrorUnauthorized : GoError :=
  errorsNew "The server API key is missing or incorrect."
def ErrorUnprocessable : GoError :=
  errorsNew "The message is invalid. Check if all required fields are filled correctly."
def ErrorInternalServerError : GoError :=
  errorsNew "The Postmark server has an internal server error."

/-! ## The library calls `Send` makes -/

/-- A JSON value, as produced by `encoding/json`. -/
inductive JSON where
  | null
  | str (s : String)
  | arr (items : List JSON)
  | obj (members : List (String × JSON))

/-- The keys of a JSON object, in order (no keys for any other value). -/
def JSON.keys : JSON → List String
  | .obj members => members.map Prod.fst
  | _ => []

/-- The value stored under a key of a JSON object. -/
def JSON.get? : JSON → String → Option JSON
  | .obj members, key => (members.find? (fun kv => kv.1 == key)).map Prod.snd
  | _, _ => none

/-- The UTF-8 encoding of one Unicode scalar value: the bytes a Go string holds
for it. -/
def encodeRune (c : Char) : List Nat :=
  if c.toNat < 0x80 then [c.toNat]
  else if c.toNat < 0x800 then [0xC0 + c.toNat / 0x40, 0x80 + c.toNat % 0x40]
  else if c.toNat < 0x10000 then
    [0xE0 + c.toNat / 0x1000, 0x80 + c.toNat / 0x40 % 0x40, 0x80 + c.toNat % 0x40]
  else
    [0xF0 + c.toNat / 0x40000, 0x80 + c.toNat / 0x1000 % 0x40,
     0x80 + c.toNat / 0x40 % 0x40, 0x80 + c.toNat % 0x40]

/-- The bytes of the Go string that holds the given text. -/
def goBytes (s : String) : List Nat := s.data.flatMap encodeRune

/-- The library call `utf8.DecodeRuneInString`: the first rune of a byte
sequence and the number of bytes it takes; `(0xFFFD, 1)` when the sequence does
not start with a valid encoding (a stray or missing continuation byte, an
overlong form, a surrogate, a value above 0x10FFFF) and `(0xFFFD, 0)` when it
is empty. -/
def decodeRune : List Nat → Nat × Nat
  | [] => (0xFFFD, 0)
  | b0 :: rest =>
    if b0 < 0x80 then (b0, 1)
    else if 0xC2 ≤ b0 ∧ b0 ≤ 0xDF then
      match rest with
      | b1 :: _ =>
        if 0x80 ≤ b1 ∧ b1 ≤ 0xBF then (b0 % 0x20 * 0x40 + b1 % 0x40, 2)
        else (0xFFFD, 1)
      | _ => (0xFFFD, 1)
    else if 0xE0 ≤ b0 ∧ b0 ≤ 0xEF then
      match rest with
      | b1 :: b2 :: _ =>
        if (if b0 = 0xE0 then 0xA0 else 0x80) ≤ b1 ∧
            b1 ≤ (if b0 = 0xED then 0x9F else 0xBF) ∧ 0x80 ≤ b2 ∧ b2 ≤ 0xBF then
          (b0 % 0x10 * 0x1000 + b1 % 0x40 * 0x40 + b2 % 0x40, 3)
        else (0xFFFD, 1)
      | _ => (0xFFFD, 1)
    else if 0xF0 ≤ b0 ∧ b0 ≤ 0xF4 then
      match rest with
      | b1 :: b2 :: b3 :: _ =>
        if (if b0 = 0xF0 then 0x90 else 0x80) ≤ b1 ∧
            b1 ≤ (if b0 = 0xF4 then 0x8F else 0xBF) ∧ 0x80 ≤ b2 ∧ b2 ≤ 0xBF ∧
            0x80 ≤ b3 ∧ b3 ≤ 0xBF then
          (b0 % 0x08 * 0x40000 + b1 % 0x40 * 0x1000 + b2 % 0x40 * 0x40 + b3 % 0x40, 4)
        else (0xFFFD, 1)
      | _ => (0xFFFD, 1)
    else (0xFFFD, 1)

/-- The runes `encoding/json` reads off the bytes of a Go string: it decodes
rune after rune, and a byte that starts no valid encoding counts as the one
rune U+FFFD.  The first argument bounds the number of runes; the number of
bytes is enough. -/
def coerceRunes : Nat → List Nat → List Char
  | 0, _ => []
  | _, [] => []
  | fuel + 1, b :: bs =>
    Char.ofNat (decodeRune (b :: bs)).1
      :: coerceRunes fuel ((b :: bs).drop (decodeRune (b :: bs)).2)

/-- The value of the JSON string `encoding/json` writes for a Go string with
the given bytes: the text of the string, every byte that is not part of valid
UTF-8 replaced by U+FFFD. -/
def jsonStringValue (bytes : List Nat) : String :=
  String.mk (coerceRunes bytes.length bytes)

/-- What `encoding/json` writes for a string field: a JSON string whose value
is read off the bytes of the Go string, invalid UTF-8 replaced by U+FFFD. -/
def marshalString (s : String) : JSON := .str (jsonStringValue (goBytes s))

/-- What `encoding/json` writes for a `*Header`: `null` for a nil pointer, and
otherwise an object with the exported fields under their own names, in
declaration order. -/
def marshalHeader : Option Header → JSON
  | none => .null
  | some h => .obj [("Name", marshalString h.Name), ("Value", marshalString h.Value)]

/-- What `encoding/json` writes for a `[]*Header`: `null` for a nil slice, and
otherwise an array of the elements in order. -/
def marshalHeaders : Option (List (Option Header)) → JSON
  | none => .null
  | some hs => .arr (hs.map marshalHeader)

/-- What `encoding/json` writes for a `Message`: the struct has no field tags,
so every exported field is written under its own name, in declaration order,
whatever its value. -/
def marshalMessage (m : Message) : JSON :=
  .obj [("From", marshalString m.From), ("To", marshalString m.To),
        ("Cc", marshalString m.Cc), ("Bcc", marshalString m.Bcc),
        ("Tag", marshalString m.Tag), ("Subject", marshalString m.Subject),
        ("HtmlBody", marshalString m.HtmlBody), ("TextBody", marshalString m.TextBody),
        ("ReplyTo", marshalString m.ReplyTo), ("Headers", marshalHeaders m.Headers)]

/-- An `http.Header`: the values stored under each key, keys in the order in
which they were first added. -/
abbrev HttpHeader := List (String × List String)

/-- The method `http.Header.Add`: appends the value to the values of the key.
The three header names `Send` uses are already in canonical form, so the key is
stored as given. -/
def headerAdd : HttpHeader → String → String → HttpHeader
  | [], key, value => [(key, [value])]
  | (k, vs) :: rest, key, value =>
    if k = key then (k, vs ++ [value]) :: rest
    else (k, vs) :: headerAdd rest key value

/-- An `http.Request`, as far as `Send` fills it in. -/
structure Request where
  Method : String
  URL : String
  Header : HttpHeader
  Body : JSON

/-- An `http.Response`, as far as `Send` could read it. -/
structure Response where
  StatusCode : Int
  Body : String
deriving DecidableEq, Repr

/-- The environment of a call of `Send`: which library calls fail, and what the
shared HTTP client answers to a request. -/
structure Env where
  marshalFailure : Message → Option GoError
  newRequestFailure : String → String → Option GoError
  clientDo : Request → Except GoError Response

/-- The library call `json.Marshal` on a message. -/
def jsonMarshal (env : Env) (message : Message) : Except GoError JSON :=
  match env.marshalFailure message with
  | some err => .error err
  | none => .ok (marshalMessage message)

/-- The library call `http.NewRequest`: a request with the given method, URL and
body, and no header yet. -/
def httpNewRequest (env : Env) (method url : String) (body : JSON) :
    Except GoError Request :=
  match env.newRequestFailure method url with
  | some err => .error err
  | none => .ok { Method := method, URL := url, Header := [], Body := body }

/-- A library call made by `Send`, with its arguments. -/
inductive Call where
  | Marshal (message : Message)
  | NewRequest (method url : String) (body : JSON)
  | Do (request : Request)

/-- What a call of `Send` does: the library calls it made, in order, and the
error it returned (`none` is Go's `nil`). -/
structure SendResult where
  calls : List Call
  err : Option GoError

/-! ## Sending -/

/-- Send connects to the postmark API and sends a message. -/
def Server.Send (env : Env) (s : Server) (message : Message) : SendResult :=
  -- Encode data
  match jsonMarshal env message with
  | .error err => { calls := [.Marshal message], err := some err }
  | .ok data =>
    -- Set up request.
    match httpNewRequest env pmRequestType pmAPIAddress data with
    | .error err =>
      { calls := [.Marshal message, .NewRequest pmRequestType pmAPIAddress data],
        err := some err }
    | .ok request =>
      -- Set headers
      let request := { request with Header := headerAdd request.Header headerAccept pmContentType }
      let request := { request with Header := headerAdd request.Header headerContent pmContentType }
      let request := { request with Header := headerAdd request.Header headerToken s.APIKey }
      -- Execute request
      match env.clientDo request with
      | .error err =>
        { calls := [.Marshal message, .NewRequest pmRequestType pmAPIAddress data,
                    .Do request],
          err := some err }
      | .ok response =>
        { calls := [.Marshal message, .NewRequest pmRequestType pmAPIAddress data,
                    .Do request],
          err :=
            if response.StatusCode = responseSuccess then none
            else if response.StatusCode = responseUnauthorized then some ErrorUnauthorized
            else if response.StatusCode = responseUnprocessable then some ErrorUnprocessable
            else if response.StatusCode = responseInternalError then
              some ErrorInternalServerError
            else some ErrorUnknownResponse }

/-- SendSimple is a shortcut for sending simple messages with both a text/html
and a text/plain body. -/
def Server.SendSimple (env : Env) (s : Server) (from_ : String) (to_ : String)
    (subject : String) (textBody : String) (htmlBody : String) : SendResult :=
  let m := NewMessage
  let m := { m with From := from_ }
  let m := { m with To := to_ }
  let m := { m with Subject := subject }
  let m := { m with HtmlBody := htmlBody }
  let m := { m with TextBody := textBody }
  s.Send env m

/-- SendSimpleHtml is a shortcut for sending simple messages with a text/html
body. -/
def Server.SendSimpleHtml (env : Env) (s : Server) (from_ : String) (to_ : String)
    (subject : String) (body : String) : SendResult :=
  s.SendSimple env from_ to_ subject body empty

/-- SendSimpleText is a shortcut for sending simple messages with a text/plain
body. -/
def Server.SendSimpleText (env : Env) (s : Server) (from_ : String) (to_ : String)
    (subject : String) (body : String) : SendResult :=
  s.SendSimple env from_ to_ subject empty body

/-! ## Concrete environments -/

/-- An environment in which no library call fails and the API answers every
request with the given status code and an empty body. -/
def Env.answering (code : Int) : Env :=
  { marshalFailure := fun _ => none
    newRequestFailure := fun _ _ => none
    clientDo := fun _ => .ok { StatusCode := code, Body := "" } }

/-- An environment in which `json.Marshal` fails with the given error. -/
def Env.marshalFailing (e : GoError) : Env :=
  { Env.answering 200 with marshalFailure := fun _ => some e }

/-- An environment in which `http.NewRequest` fails with the given error. -/
def Env.newRequestFailing (e : GoError) : Env :=
  { Env.answering 200 with newRequestFailure := fun _ _ => some e }

/-- An environment in which the HTTP exchange fails with the given error. -/
def Env.exchangeFailing (e : GoError) : Env :=
  { Env.answering 200 with clientDo := fun _ => .error e }

/-- A message with every field filled in, one of its header pointers nil. -/
def sampleMessage : Message :=
  { From := "signature@example.com", To := "recipient@example.com",
    Cc := "cc@example.com", Bcc := "bcc@example.com", Tag := "welcome",
    Subject := "Example e-mail", HtmlBody := "<p>Hello there</p>",
    TextBody := "Hello there", ReplyTo := "reply@example.com",
    Headers := some [some (NewHeader "X-First" "1"), none,
                     some (NewHeader "X-Second" "2")] }

/-- The server of the repository's example program. -/
def sampleServer : Server := NewServer "api-key-here"

/-- The request `sampleServer` sends for `sampleMessage`. -/
def sampleRequest : Request :=
  { Method := "POST", URL := "http://api.postmarkapp.com/email",
    Header := [("Accept", ["application/json"]), ("Content-Type", ["application/json"]),
               ("X-Postmark-Server-Token", ["api-key-here"])],
    Body := marshalMessage sampleMessage }

/-! ## Building the recipient fields -/

theorem length_pos_iff_ne_empty (t : String) : 0 < t.length ↔ t ≠ "" := by
  cases t with
  | mk l =>
    cases l with
    | nil => simp [String.length]
    | cons c cs => simp [String.length, String.ext_iff]

theorem AppendTo_To_of_ne_empty (m : Message) (r : String) (h : m.To ≠ "") :
    (m.AppendTo r).To = m.To ++ ", " ++ r := by
  have hpos : 0 < m.To.length := (length_pos_iff_ne_empty _).2 h
  simp [Message.AppendTo, hpos, String.append_assoc]

theorem AppendTo_To_of_empty (m : Message) (r : String) (h : m.To = "") :
    (m.AppendTo r).To = r := by
  have hpos : ¬ 0 < m.To.length := by
    rw [length_pos_iff_ne_empty]; simp [h]
  simp [Message.AppendTo, hpos]

theorem append_ne_empty_left (a b : String) (h : a ≠ "") : a ++ b ≠ "" := by
  rw [← length_pos_iff_ne_empty] at h ⊢
  rw [String.length_append]; omega

theorem foldl_AppendTo_of_ne_empty (as : List String) :
    ∀ m : Message, m.To ≠ "" →
      (as.foldl Message.AppendTo m).To = String.intercalate.go m.To ", " as := by
  induction as with
  | nil => intro m _; rfl
  | cons a as ih =>
    intro m h
    have hstep := AppendTo_To_of_ne_empty m a h
    have hne : (m.AppendTo a).To ≠ "" := by
      rw [hstep, String.append_assoc]; exact append_ne_empty_left _ _ h
    rw [List.foldl_cons, ih _ hne, hstep]
    rfl

theorem foldl_AppendTo_of_empty (as : List String) :
    ∀ m : Message, m.To = "" →
      (as.foldl Message.AppendTo m).To = ", ".intercalate (as.dropWhile (· == "")) := by
  induction as with
  | nil => intro m h; simpa [String.intercalate] using h
  | cons a as ih =>
    intro m h
    have hstep := AppendTo_To_of_empty m a h
    by_cases ha : a = ""
    · subst ha
      rw [List.foldl_cons, ih _ hstep]
      simp [List.dropWhile]
    · have hne : (m.AppendTo a).To ≠ "" := by rw [hstep]; exact ha
      rw [List.foldl_cons, foldl_AppendTo_of_ne_empty as _ hne, hstep]
      have hb : (a == "") = false := by simp [ha]
      simp [List.dropWhile, hb, String.intercalate]

theorem foldl_AppendTo_ne_empty (as : List String) :
    ∀ m : Message, m.To ≠ "" → (as.foldl Message.AppendTo m).To ≠ "" := by
  induction as with
  | nil => intro m h; exact h
  | cons a as ih =>
    intro m h
    rw [List.foldl_cons]
    apply ih
    rw [AppendTo_To_of_ne_empty m a h, String.append_assoc]
    exact append_ne_empty_left _ _ h

theorem foldl_AppendTo_ne_empty_of_mem (as : List String) :
    ∀ m : Message, (∃ a ∈ as, a ≠ "") → (as.foldl Message.AppendTo m).To ≠ "" := by
  induction as with
  | nil => intro m h; obtain ⟨a, ha, _⟩ := h; cases ha
  | cons a as ih =>
    intro m h
    by_cases hm : m.To = ""
    · by_cases ha : a = ""
      · rw [List.foldl_cons]
        apply ih
        obtain ⟨b, hb, hbne⟩ := h
        rcases List.mem_cons.1 hb with hba | hbas
        · exact absurd (hba.trans ha) hbne
        · exact ⟨b, hbas, hbne⟩
      · rw [List.foldl_cons]
        apply foldl_AppendTo_ne_empty
        rw [AppendTo_To_of_empty m a hm]; exact ha
    · rw [List.foldl_cons]
      apply foldl_AppendTo_ne_empty
      rw [AppendTo_To_of_ne_empty m a hm, String.append_assoc]
      exact append_ne_empty_left _ _ hm

/-- C3, counterexample: appending the empty string and then `a@example.com` to
a fresh message leaves To equal to `a@example.com`, not to the join
`, a@example.com` of the two appended strings. -/
theorem AppendTo_join_fails_after_empty_address :
    (["", "a@example.com"].foldl Message.AppendTo NewMessage).To
      ≠ ", ".intercalate ["", "a@example.com"] := by
  decide

/-- C3, as amended: for every finite sequence of addresses that does not start
with an empty string, calling AppendTo on a fresh message with each address in
order leaves To equal to the addresses joined with `", "` in call order (the
empty string for the empty sequence). -/
theorem AppendTo_joins_addresses (as : List String) (h : as.head? ≠ some "") :
    (as.foldl Message.AppendTo NewMessage).To = ", ".intercalate as := by
  cases as with
  | nil => rfl
  | cons a as =>
    have ha : a ≠ "" := by
      intro hempty
      exact h (by simp [hempty])
    have hstep : (NewMessage.AppendTo a).To = a := AppendTo_To_of_empty _ _ rfl
    have hne : (NewMessage.AppendTo a).To ≠ "" := by rw [hstep]; exact ha
    rw [List.foldl_cons, foldl_AppendTo_of_ne_empty as _ hne, hstep]
    rfl

theorem AppendTo_joins_addresses_witness :
    ["a@example.com", "", "b@example.com"].head? ≠ some "" ∧
      (["a@example.com", "", "b@example.com"].foldl Message.AppendTo NewMessage).To
        = ", ".intercalate ["a@example.com", "", "b@example.com"] :=
  ⟨by decide, AppendTo_joins_addresses _ (by decide)⟩

/-- C10: for every finite sequence of strings, empty ones allowed, calling
AppendTo on a fresh message with each string in order leaves To equal to the
`", "`-join of the sequence without its leading empty strings; and once the
sequence holds a non-empty address, appending one more empty string adds one
more `", "` separator to To. -/
theorem AppendTo_drops_leading_empty (as : List String) :
    (as.foldl Message.AppendTo NewMessage).To
        = ", ".intercalate (as.dropWhile (· == "")) ∧
      ((∃ a ∈ as, a ≠ "") →
        ((as ++ [""]).foldl Message.AppendTo NewMessage).To
          = (as.foldl Message.AppendTo NewMessage).To ++ ", ") := by
  refine ⟨foldl_AppendTo_of_empty as NewMessage rfl, ?_⟩
  intro h
  have hne := foldl_AppendTo_ne_empty_of_mem as NewMessage h
  rw [List.foldl_append, List.foldl_cons, List.foldl_nil,
    AppendTo_To_of_ne_empty _ _ hne]
  simp

theorem AppendTo_drops_leading_empty_witness :
    (["", "", "a@example.com", "", "b@example.com"].foldl Message.AppendTo NewMessage).To
        = ", ".intercalate
            (["", "", "a@example.com", "", "b@example.com"].dropWhile (· == "")) ∧
      ((["", "", "a@example.com", "", "b@example.com"] ++ [""]).foldl
          Message.AppendTo NewMessage).To
        = (["", "", "a@example.com", "", "b@example.com"].foldl
            Message.AppendTo NewMessage).To ++ ", " :=
  ⟨(AppendTo_drops_leading_empty _).1,
   (AppendTo_drops_leading_empty _).2 ⟨"a@example.com", by simp, by decide⟩⟩

/-- C4, the code at the failing input: on a message whose Cc field is empty,
AppendCc leaves Cc empty and overwrites To with the address; on a fresh message
and `cc@example.com`, Cc stays empty and To becomes `cc@example.com`. -/
theorem AppendCc_of_empty_Cc_sets_To (m : Message) (r : String) :
    ({ m with Cc := "" } : Message).AppendCc r = { m with Cc := "", To := r } ∧
      (NewMessage.AppendCc "cc@example.com").Cc = "" ∧
      (NewMessage.AppendCc "cc@example.com").To = "cc@example.com" := by
  refine ⟨?_, by decide, by decide⟩
  simp [Message.AppendCc]

/-- C5, the code at the failing input: on a message whose Bcc field is empty,
AppendBcc leaves Bcc empty and overwrites To with the address; on a fresh
message and `bcc@example.com`, Bcc stays empty and To becomes
`bcc@example.com`. -/
theorem AppendBcc_of_empty_Bcc_sets_To (m : Message) (r : String) :
    ({ m with Bcc := "" } : Message).AppendBcc r = { m with Bcc := "", To := r } ∧
      (NewMessage.AppendBcc "bcc@example.com").Bcc = "" ∧
      (NewMessage.AppendBcc "bcc@example.com").To = "bcc@example.com" := by
  refine ⟨?_, by decide, by decide⟩
  simp [Message.AppendBcc]

/-! ## What `encoding/json` writes for a string -/

theorem char_toNat_range (c : Char) :
    c.toNat < 0xD800 ∨ (0xDFFF < c.toNat ∧ c.toNat < 0x110000) := by
  have h := c.valid
  simp only [UInt32.isValidChar, Nat.isValidChar] at h
  exact h

theorem decodeRune_encodeRune (c : Char) (rest : List Nat) :
    decodeRune (encodeRune c ++ rest) = (c.toNat, (encodeRune c).length) := by
  have hr := char_toNat_range c
  unfold encodeRune
  generalize c.toNat = n at hr ⊢
  split_ifs with h1 h2 h3
  · simp [decodeRune, h1]
  · have a1 : ¬ (0xC0 + n / 0x40 < 0x80) := by omega
    have a2 : 0xC2 ≤ 0xC0 + n / 0x40 ∧ 0xC0 + n / 0x40 ≤ 0xDF := by omega
    have a3 : 0x80 ≤ 0x80 + n % 0x40 ∧ 0x80 + n % 0x40 ≤ 0xBF := by omega
    simp only [List.cons_append, List.nil_append, decodeRune, a1, a2, a3, if_true, if_false,
      and_self, List.length_cons, List.length_nil]
    congr 1
    omega
  · have a1 : ¬ (0xE0 + n / 0x1000 < 0x80) := by omega
    have a2 : ¬ (0xC2 ≤ 0xE0 + n / 0x1000 ∧ 0xE0 + n / 0x1000 ≤ 0xDF) := by omega
    have a3 : 0xE0 ≤ 0xE0 + n / 0x1000 ∧ 0xE0 + n / 0x1000 ≤ 0xEF := by omega
    have a4 : (if 0xE0 + n / 0x1000 = 0xE0 then 0xA0 else 0x80) ≤ 0x80 + n / 0x40 % 0x40 ∧
        0x80 + n / 0x40 % 0x40 ≤ (if 0xE0 + n / 0x1000 = 0xED then 0x9F else 0xBF) ∧
        0x80 ≤ 0x80 + n % 0x40 ∧ 0x80 + n % 0x40 ≤ 0xBF := by
      split_ifs <;> omega
    simp only [List.cons_append, List.nil_append, decodeRune, a1, a2, a3, a4, if_true, if_false,
      and_self, List.length_cons, List.length_nil]
    congr 1
    omega
  · have a1 : ¬ (0xF0 + n / 0x40000 < 0x80) := by omega
    have a2 : ¬ (0xC2 ≤ 0xF0 + n / 0x40000 ∧ 0xF0 + n / 0x40000 ≤ 0xDF) := by omega
    have a3 : ¬ (0xE0 ≤ 0xF0 + n / 0x40000 ∧ 0xF0 + n / 0x40000 ≤ 0xEF) := by omega
    have a4 : 0xF0 ≤ 0xF0 + n / 0x40000 ∧ 0xF0 + n / 0x40000 ≤ 0xF4 := by omega
    have a5 : (if 0xF0 + n / 0x40000 = 0xF0 then 0x90 else 0x80) ≤ 0x80 + n / 0x1000 % 0x40 ∧
        0x80 + n / 0x1000 % 0x40 ≤ (if 0xF0 + n / 0x40000 = 0xF4 then 0x8F else 0xBF) ∧
        0x80 ≤ 0x80 + n / 0x40 % 0x40 ∧ 0x80 + n / 0x40 % 0x40 ≤ 0xBF ∧
        0x80 ≤ 0x80 + n % 0x40 ∧ 0x80 + n % 0x40 ≤ 0xBF := by
      split_ifs <;> omega
    simp only [List.cons_append, List.nil_append, decodeRune, a1, a2, a3, a4, a5, if_true,
      if_false, and_self, List.length_cons, List.length_nil]
    congr 1
    omega

theorem encodeRune_length_pos (c : Char) : 0 < (encodeRune c).length := by
  unfold encodeRune
  split_ifs <;> simp

theorem coerceRunes_flatMap_encodeRune (cs : List Char) :
    ∀ fuel : Nat, (cs.flatMap encodeRune).length ≤ fuel →
      coerceRunes fuel (cs.flatMap encodeRune) = cs := by
  induction cs with
  | nil => intro fuel _; cases fuel <;> rfl
  | cons c cs ih =>
    intro fuel hfuel
    have hpos := encodeRune_length_pos c
    rw [List.flatMap_cons] at hfuel ⊢
    rw [List.length_append] at hfuel
    cases fuel with
    | zero => omega
    | succ fuel =>
      cases hb : encodeRune c with
      | nil => rw [hb] at hpos; simp at hpos
      | cons b bs =>
        have hdec := decodeRune_encodeRune c (cs.flatMap encodeRune)
        rw [hb] at hdec hfuel
        rw [List.cons_append] at hdec ⊢
        rw [coerceRunes, hdec]
        simp only [Char.ofNat_toNat]
        rw [← List.cons_append, List.drop_left,
          ih fuel (by rw [List.length_cons] at hfuel; omega)]

/-- On the bytes of a text, that is on valid UTF-8, the JSON string carries the
text itself. -/
theorem jsonStringValue_goBytes (s : String) : jsonStringValue (goBytes s) = s := by
  unfold jsonStringValue goBytes
  rw [coerceRunes_flatMap_encodeRune s.data _ (le_refl _)]

/-- On bytes that are not valid UTF-8 the JSON string differs from the Go
string: the stray byte 0xFF of `a\xffb` and both bytes of a truncated
three-byte form come out as U+FFFD. -/
theorem jsonStringValue_invalid_bytes :
    jsonStringValue [0x61, 0xFF, 0x62] = String.mk ['a', Char.ofNat 0xFFFD, 'b'] ∧
      jsonStringValue [0xE2, 0x82] = String.mk [Char.ofNat 0xFFFD, Char.ofNat 0xFFFD] := by
  decide

theorem marshalString_eq (s : String) : marshalString s = JSON.str s := by
  unfold marshalString
  rw [jsonStringValue_goBytes]

theorem marshalHeader_eq (p : Option Header) :
    marshalHeader p
      = match p with
        | none => JSON.null
        | some hd => JSON.obj [("Name", JSON.str hd.Name), ("Value", JSON.str hd.Value)] := by
  cases p with
  | none => rfl
  | some hd => simp only [marshalHeader, marshalString_eq]

theorem marshalMessage_eq (m : Message) :
    marshalMessage m
      = JSON.obj [("From", JSON.str m.From), ("To", JSON.str m.To), ("Cc", JSON.str m.Cc),
          ("Bcc", JSON.str m.Bcc), ("Tag", JSON.str m.Tag), ("Subject", JSON.str m.Subject),
          ("HtmlBody", JSON.str m.HtmlBody), ("TextBody", JSON.str m.TextBody),
          ("ReplyTo", JSON.str m.ReplyTo), ("Headers", marshalHeaders m.Headers)] := by
  simp only [marshalMessage, marshalString_eq]

/-! ## Sending -/

theorem Send_calls_head (env : Env) (s : Server) (m : Message) :
    (s.Send env m).calls.head? = some (Call.Marshal m) := by
  unfold Server.Send
  split
  · rfl
  · split
    · rfl
    · dsimp only
      split <;> rfl

/-- C1, what the code does on every input: the message SendSimpleText hands to Send
(the argument of its first library call, `json.Marshal`) carries the body in
HtmlBody and has an empty TextBody. -/
theorem SendSimpleText_sends_body_as_HtmlBody (env : Env) (s : Server)
    (from_ to_ subject body : String) :
    (s.SendSimpleText env from_ to_ subject body).calls.head?
      = some (Call.Marshal
          { From := from_, To := to_, Cc := "", Bcc := "", Tag := "",
            Subject := subject, HtmlBody := body, TextBody := "", ReplyTo := "",
            Headers := none }) := by
  unfold Server.SendSimpleText Server.SendSimple
  exact Send_calls_head _ _ _

/-- C2, what the code does on every input: the message SendSimpleHtml hands to Send
(the argument of its first library call, `json.Marshal`) carries the body in
TextBody and has an empty HtmlBody. -/
theorem SendSimpleHtml_sends_body_as_TextBody (env : Env) (s : Server)
    (from_ to_ subject body : String) :
    (s.SendSimpleHtml env from_ to_ subject body).calls.head?
      = some (Call.Marshal
          { From := from_, To := to_, Cc := "", Bcc := "", Tag := "",
            Subject := subject, HtmlBody := "", TextBody := body, ReplyTo := "",
            Headers := none }) := by
  unfold Server.SendSimpleHtml Server.SendSimple
  exact Send_calls_head _ _ _

theorem Send_of_no_failure (env : Env) (s : Server) (m : Message)
    (h1 : env.marshalFailure m = none)
    (h2 : env.newRequestFailure pmRequestType pmAPIAddress = none) :
    (s.Send env m).calls
      = [Call.Marshal m, Call.NewRequest pmRequestType pmAPIAddress (marshalMessage m),
         Call.Do
          { Method := pmRequestType, URL := pmAPIAddress,
            Header := [(headerAccept, [pmContentType]), (headerContent, [pmContentType]),
                       (headerToken, [s.APIKey])],
            Body := marshalMessage m }] := by
  have hhdr : ∀ key : String,
      headerAdd (headerAdd (headerAdd [] headerAccept pmContentType)
          headerContent pmContentType) headerToken key
        = [(headerAccept, [pmContentType]), (headerContent, [pmContentType]),
           (headerToken, [key])] := by
    intro key
    simp [headerAdd, headerAccept, headerContent, headerToken]
  unfold Server.Send
  simp only [jsonMarshal, httpNewRequest, h1, h2]
  split <;> simp [hhdr]

theorem Send_Do_mem (env : Env) (s : Server) (m : Message) (req : Request)
    (h : Call.Do req ∈ (s.Send env m).calls) :
    env.marshalFailure m = none ∧
      env.newRequestFailure pmRequestType pmAPIAddress = none ∧
      req = { Method := pmRequestType, URL := pmAPIAddress,
              Header := [(headerAccept, [pmContentType]),
                         (headerContent, [pmContentType]),
                         (headerToken, [s.APIKey])],
              Body := marshalMessage m } := by
  cases h1 : env.marshalFailure m with
  | some e =>
    exfalso
    unfold Server.Send at h
    simp [jsonMarshal, h1] at h
  | none =>
    cases h2 : env.newRequestFailure pmRequestType pmAPIAddress with
    | some e =>
      exfalso
      unfold Server.Send at h
      simp [jsonMarshal, httpNewRequest, h1, h2] at h
    | none =>
      rw [Send_of_no_failure env s m h1 h2] at h
      simpa using h

theorem Send_err_of_no_failure (env : Env) (s : Server) (m : Message)
    (h1 : env.marshalFailure m = none)
    (h2 : env.newRequestFailure pmRequestType pmAPIAddress = none) :
    (s.Send env m).err
      = match env.clientDo
            { Method := pmRequestType, URL := pmAPIAddress,
              Header := [(headerAccept, [pmContentType]),
                         (headerContent, [pmContentType]),
                         (headerToken, [s.APIKey])],
              Body := marshalMessage m } with
        | .error err => some err
        | .ok response =>
          if response.StatusCode = responseSuccess then none
          else if response.StatusCode = responseUnauthorized then some ErrorUnauthorized
          else if response.StatusCode = responseUnprocessable then some ErrorUnprocessable
          else if response.StatusCode = responseInternalError then
            some ErrorInternalServerError
          else some ErrorUnknownResponse := by
  have hhdr : ∀ key : String,
      headerAdd (headerAdd (headerAdd [] headerAccept pmContentType)
          headerContent pmContentType) headerToken key
        = [(headerAccept, [pmContentType]), (headerContent, [pmContentType]),
           (headerToken, [key])] := by
    intro key
    simp [headerAdd, headerAccept, headerContent, headerToken]
  unfold Server.Send
  simp only [jsonMarshal, httpNewRequest, h1, h2, hhdr]
  split <;> rename_i heq <;> simp only [heq]

theorem sampleRequest_mem (env : Env) (h1 : env.marshalFailure sampleMessage = none)
    (h2 : env.newRequestFailure pmRequestType pmAPIAddress = none) :
    Call.Do sampleRequest ∈ (sampleServer.Send env sampleMessage).calls := by
  rw [Send_of_no_failure env sampleServer sampleMessage h1 h2]
  exact List.Mem.tail _ (List.Mem.tail _ (List.Mem.head _))

/-- C6: whenever Send hands a request to the HTTP client and the exchange
completes with a response of status code c, whatever the server, the message and
the response body, Send returns no error if c = 200, ErrorUnauthorized if
c = 401, ErrorUnprocessable if c = 422, ErrorInternalServerError if c = 500 and
ErrorUnknownResponse for every other integer c; and the four error values are
pairwise distinct. -/
theorem Send_result_by_status_code (env : Env) (s : Server) (m : Message)
    (req : Request) (resp : Response)
    (hdo : Call.Do req ∈ (s.Send env m).calls)
    (hresp : env.clientDo req = .ok resp) :
    ((resp.StatusCode = 200 → (s.Send env m).err = none) ∧
      (resp.StatusCode = 401 → (s.Send env m).err = some ErrorUnauthorized) ∧
      (resp.StatusCode = 422 → (s.Send env m).err = some ErrorUnprocessable) ∧
      (resp.StatusCode = 500 → (s.Send env m).err = some ErrorInternalServerError) ∧
      (resp.StatusCode ≠ 200 → resp.StatusCode ≠ 401 → resp.StatusCode ≠ 422 →
        resp.StatusCode ≠ 500 → (s.Send env m).err = some ErrorUnknownResponse)) ∧
      [ErrorUnauthorized, ErrorUnprocessable, ErrorInternalServerError,
        ErrorUnknownResponse].Pairwise (· ≠ ·) := by
  obtain ⟨h1, h2, hreq⟩ := Send_Do_mem env s m req hdo
  have herr := Send_err_of_no_failure env s m h1 h2
  rw [← hreq, hresp] at herr
  simp only at herr
  refine ⟨⟨?_, ?_, ?_, ?_, ?_⟩, by decide⟩
  · intro hc
    rw [herr, hc]; rfl
  · intro hc
    rw [herr, hc]; rfl
  · intro hc
    rw [herr, hc]; rfl
  · intro hc
    rw [herr, hc]; rfl
  · intro h200 h401 h422 h500
    rw [herr]
    simp [responseSuccess, responseUnauthorized, responseUnprocessable,
      responseInternalError, h200, h401, h422, h500]

theorem Send_result_by_status_code_witness :
    (sampleServer.Send (Env.answering 403) sampleMessage).err
        = some ErrorUnknownResponse ∧
      (sampleServer.Send (Env.answering 401) sampleMessage).err
        = some ErrorUnauthorized :=
  ⟨(Send_result_by_status_code (Env.answering 403) sampleServer sampleMessage
      sampleRequest { StatusCode := 403, Body := "" }
      (sampleRequest_mem _ rfl rfl) rfl).1.2.2.2.2
      (by decide) (by decide) (by decide) (by decide),
   (Send_result_by_status_code (Env.answering 401) sampleServer sampleMessage
      sampleRequest { StatusCode := 401, Body := "" }
      (sampleRequest_mem _ rfl rfl) rfl).1.2.1 rfl⟩

/-- C7: every request Send hands to the HTTP client is a POST to the fixed
endpoint http://api.postmarkapp.com/email whose headers are exactly
Accept = application/json, Content-Type = application/json and
X-Postmark-Server-Token = the server's APIKey, each with a single value; it is
the only request of the call; and the APIKey of a server made by NewServer is
the key given to NewServer. -/
theorem Send_request_method_url_headers (env : Env) (s : Server) (m : Message)
    (req : Request) (h : Call.Do req ∈ (s.Send env m).calls) :
    req.Method = "POST" ∧
      req.URL = "http://api.postmarkapp.com/email" ∧
      req.Header = [("Accept", ["application/json"]),
                    ("Content-Type", ["application/json"]),
                    ("X-Postmark-Server-Token", [s.APIKey])] ∧
      (s.Send env m).calls
        = [Call.Marshal m,
           Call.NewRequest "POST" "http://api.postmarkapp.com/email" (marshalMessage m),
           Call.Do req] ∧
      ∀ key : String, (NewServer key).APIKey = key := by
  obtain ⟨h1, h2, hreq⟩ := Send_Do_mem env s m req h
  refine ⟨by rw [hreq]; rfl, by rw [hreq]; rfl, by rw [hreq]; rfl, ?_, fun _ => rfl⟩
  rw [Send_of_no_failure env s m h1 h2, hreq]
  rfl

theorem Send_request_method_url_headers_witness :
    sampleRequest.Header = [("Accept", ["application/json"]),
                            ("Content-Type", ["application/json"]),
                            ("X-Postmark-Server-Token", ["api-key-here"])] ∧
      (sampleServer.Send (Env.answering 200) sampleMessage).calls
        = [Call.Marshal sampleMessage,
           Call.NewRequest "POST" "http://api.postmarkapp.com/email"
             (marshalMessage sampleMessage),
           Call.Do sampleRequest] :=
  ⟨(Send_request_method_url_headers (Env.answering 200) sampleServer sampleMessage
      sampleRequest (sampleRequest_mem _ rfl rfl)).2.2.1,
   (Send_request_method_url_headers (Env.answering 200) sampleServer sampleMessage
      sampleRequest (sampleRequest_mem _ rfl rfl)).2.2.2.1⟩

/-- C8, counterexample: for a fresh message, whose Headers list is nil, the
body of the request Send hands to the HTTP client carries `null` under the key
Headers, which is not an array. -/
theorem Send_body_Headers_null_for_nil_Headers :
    ∃ req : Request,
      Call.Do req ∈ (sampleServer.Send (Env.answering 200) NewMessage).calls ∧
        req.Body.get? "Headers" = some JSON.null ∧
        ¬ ∃ items : List JSON, req.Body.get? "Headers" = some (JSON.arr items) := by
  refine ⟨{ Method := "POST", URL := "http://api.postmarkapp.com/email",
            Header := [("Accept", ["application/json"]),
                       ("Content-Type", ["application/json"]),
                       ("X-Postmark-Server-Token", ["api-key-here"])],
            Body := marshalMessage NewMessage }, ?_, rfl, ?_⟩
  · rw [Send_of_no_failure (Env.answering 200) sampleServer NewMessage rfl rfl]
    exact List.Mem.tail _ (List.Mem.tail _ (List.Mem.head _))
  · rintro ⟨items, hitems⟩
    have hnull : (marshalMessage NewMessage).get? "Headers" = some JSON.null := rfl
    rw [show (Request.Body _) = marshalMessage NewMessage from rfl, hnull] at hitems
    cases hitems

/-- C8, as amended: for every message whose strings are valid UTF-8 (every
`Message` of this model), also one whose fields are all empty, the body of every
request Send hands to the HTTP client is a JSON object with exactly the ten
keys From, To, Cc, Bcc, Tag, Subject, HtmlBody, TextBody, ReplyTo, Headers, in
this order, each present whatever the field holds; each of the nine string
fields is carried as a JSON string whose value is the field's value; Headers is
`null` when the Headers list is nil, and otherwise an array that holds, in the
list's order, a Name and Value object for each header and `null` for each nil
header pointer. -/
theorem Send_body_keys_and_values (env : Env) (s : Server) (m : Message)
    (req : Request) (h : Call.Do req ∈ (s.Send env m).calls) :
    req.Body.keys = ["From", "To", "Cc", "Bcc", "Tag", "Subject", "HtmlBody",
                     "TextBody", "ReplyTo", "Headers"] ∧
      req.Body.get? "From" = some (JSON.str m.From) ∧
      req.Body.get? "To" = some (JSON.str m.To) ∧
      req.Body.get? "Cc" = some (JSON.str m.Cc) ∧
      req.Body.get? "Bcc" = some (JSON.str m.Bcc) ∧
      req.Body.get? "Tag" = some (JSON.str m.Tag) ∧
      req.Body.get? "Subject" = some (JSON.str m.Subject) ∧
      req.Body.get? "HtmlBody" = some (JSON.str m.HtmlBody) ∧
      req.Body.get? "TextBody" = some (JSON.str m.TextBody) ∧
      req.Body.get? "ReplyTo" = some (JSON.str m.ReplyTo) ∧
      (m.Headers = none → req.Body.get? "Headers" = some JSON.null) ∧
      (∀ hs : List (Option Header), m.Headers = some hs →
        req.Body.get? "Headers"
          = some (JSON.arr (hs.map fun p =>
              match p with
              | none => JSON.null
              | some hd => JSON.obj [("Name", JSON.str hd.Name),
                                     ("Value", JSON.str hd.Value)]))) := by
  obtain ⟨_, _, hreq⟩ := Send_Do_mem env s m req h
  have hbody : req.Body = marshalMessage m := by rw [hreq]
  rw [hbody, marshalMessage_eq]
  refine ⟨rfl, rfl, rfl, rfl, rfl, rfl, rfl, rfl, rfl, rfl, ?_, ?_⟩
  · intro hnil
    show some (marshalHeaders m.Headers) = _
    rw [hnil]; rfl
  · intro hs hsome
    show some (marshalHeaders m.Headers) = _
    rw [hsome]
    simp only [marshalHeaders]
    congr 2
    apply List.map_congr_left
    intro p _
    exact marshalHeader_eq p

theorem Send_body_keys_and_values_witness :
    sampleRequest.Body.keys = ["From", "To", "Cc", "Bcc", "Tag", "Subject", "HtmlBody",
                               "TextBody", "ReplyTo", "Headers"] ∧
      sampleRequest.Body.get? "Subject" = some (JSON.str "Example e-mail") ∧
      sampleRequest.Body.get? "Headers"
        = some (JSON.arr
            [JSON.obj [("Name", JSON.str "X-First"), ("Value", JSON.str "1")],
             JSON.null,
             JSON.obj [("Name", JSON.str "X-Second"), ("Value", JSON.str "2")]]) :=
  ⟨(Send_body_keys_and_values (Env.answering 200) sampleServer sampleMessage
      sampleRequest (sampleRequest_mem _ rfl rfl)).1,
   (Send_body_keys_and_values (Env.answering 200) sampleServer sampleMessage
      sampleRequest (sampleRequest_mem _ rfl rfl)).2.2.2.2.2.2.1,
   (Send_body_keys_and_values (Env.answering 200) sampleServer sampleMessage
      sampleRequest (sampleRequest_mem _ rfl rfl)).2.2.2.2.2.2.2.2.2.2.2 _ rfl⟩

/-- C9: a failure below the status code is returned as is.  If serializing the
message fails with error e, Send returns exactly e and hands no request to the
HTTP client; if serializing succeeds and building the request fails with e,
Send returns exactly e and hands no request to the HTTP client; and if the
exchange of a request Send handed to the client fails with e, Send returns
exactly e. -/
theorem Send_returns_low_level_failure (env : Env) (s : Server) (m : Message)
    (e : GoError) :
    (env.marshalFailure m = some e →
        (s.Send env m).err = some e ∧ ∀ req, Call.Do req ∉ (s.Send env m).calls) ∧
      (env.marshalFailure m = none →
        env.newRequestFailure "POST" "http://api.postmarkapp.com/email" = some e →
        (s.Send env m).err = some e ∧ ∀ req, Call.Do req ∉ (s.Send env m).calls) ∧
      (∀ req, Call.Do req ∈ (s.Send env m).calls → env.clientDo req = .error e →
        (s.Send env m).err = some e) := by
  refine ⟨?_, ?_, ?_⟩
  · intro h1
    have hne : env.marshalFailure m ≠ none := by rw [h1]; simp
    refine ⟨?_, fun req hmem => hne (Send_Do_mem env s m req hmem).1⟩
    unfold Server.Send
    simp [jsonMarshal, h1]
  · intro h1 h2
    have h2' : env.newRequestFailure pmRequestType pmAPIAddress = some e := h2
    have hne : env.newRequestFailure pmRequestType pmAPIAddress ≠ none := by
      rw [h2']; simp
    refine ⟨?_, fun req hmem => hne (Send_Do_mem env s m req hmem).2.1⟩
    unfold Server.Send
    simp [jsonMarshal, httpNewRequest, h1, h2']
  · intro req hmem hfail
    obtain ⟨h1, h2, hreq⟩ := Send_Do_mem env s m req hmem
    have herr := Send_err_of_no_failure env s m h1 h2
    rw [← hreq, hfail] at herr
    exact herr

theorem Send_returns_low_level_failure_witness :
    (sampleServer.Send (Env.marshalFailing (errorsNew "json: unsupported value"))
        sampleMessage).err = some (errorsNew "json: unsupported value") ∧
      (sampleServer.Send (Env.newRequestFailing (errorsNew "net/http: invalid method"))
        sampleMessage).err = some (errorsNew "net/http: invalid method") ∧
      (sampleServer.Send (Env.exchangeFailing (errorsNew "dial tcp: connection refused"))
        sampleMessage).err = some (errorsNew "dial tcp: connection refused") :=
  ⟨((Send_returns_low_level_failure
        (Env.marshalFailing (errorsNew "json: unsupported value"))
        sampleServer sampleMessage (errorsNew "json: unsupported value")).1 rfl).1,
   ((Send_returns_low_level_failure
        (Env.newRequestFailing (errorsNew "net/http: invalid method"))
        sampleServer sampleMessage (errorsNew "net/http: invalid method")).2.1 rfl rfl).1,
   (Send_returns_low_level_failure
        (Env.exchangeFailing (errorsNew "dial tcp: connection refused"))
        sampleServer sampleMessage (errorsNew "dial tcp: connection refused")).2.2
      sampleRequest (sampleRequest_mem _ rfl rfl) rfl⟩

end postmark
